import Mathlib

/-!
Shallow embedding of the optitrader portfolio-optimization core:
`optitrader/optimization/solver.py`, `optitrader/optimization/constraints.py`,
`optitrader/optimization/objectives.py`, `optitrader/portfolio.py`,
`optitrader/backtester.py`, `optitrader/enums/backtester.py`,
`optitrader/config.py`.

Python floats are modelled as rationals, pandas frames as association lists
(column name paired with the list of cells; a `none` cell is a NaN), pandas
timestamps as a calendar date paired with a seconds-past-midnight field.
Python exceptions become `Except` values whose error constructors follow the
spec's taxonomy (the source raises `AssertionError` with the quoted messages;
the spec names those raise sites `InputError`, `InfeasibleOrNumericalError`
and tolerance violations).
-/

namespace Opti

/-- `Settings.SUM_WEIGHTS_TOLERANCE` from `config.py` (0.02). -/
def SUM_WEIGHTS_TOLERANCE : ℚ := 2 / 100

/-- Constraint names, from `enums/optimization.py::ConstraintName`. -/
inductive CName where
  | sumToOne
  | longOnly
  | numAssets
  | weightsPct
deriving DecidableEq

/-- Objective names, from `enums/optimization.py::ObjectiveName`. -/
inductive OName where
  | cvar
  | covariance
  | expectedReturns
  | meanAbsDeviation
  | financials
  | mostDiversified
deriving DecidableEq

/-- Error taxonomy of the spec; each constructor stands for a raise site in the
source (which raises `AssertionError` with the message recorded here). -/
inductive OptiError where
  | inputError (msg : String)
  | infeasibleOrNumerical (msg : String)
  | toleranceViolation (msg : String)
  | backendRaised (msg : String)
deriving DecidableEq

/-! ### Portfolio construction check (`portfolio.py::Portfolio.__init__`) -/

/-- Whether `Portfolio.__init__` raises on a list of weight values: the check
runs only when the series is non-empty and its sum is non-zero, and then
asserts `1 - sum <= SETTINGS.SUM_WEIGHTS_TOLERANCE`. -/
def portfolioSumCheckRaises (ws : List ℚ) : Bool :=
  if ws.isEmpty then false
  else if ws.sum ≠ 0 then decide (¬ (1 - ws.sum ≤ SUM_WEIGHTS_TOLERANCE))
  else false

/-- `Portfolio.__init__` on a ticker-to-weight mapping. -/
def portfolioInitRaises (w : List (String × ℚ)) : Bool :=
  portfolioSumCheckRaises (w.map Prod.snd)

/-- Constructing a `Portfolio` as an `Except` value. -/
def mkPortfolioChecked (w : List (String × ℚ)) : Except OptiError (List (String × ℚ)) :=
  if portfolioInitRaises w then
    .error (.toleranceViolation "The sum of weights has to be 1.")
  else .ok w

/-! ### Solver post-processing (`solver.py::Solver.solve`, tail) -/

/-- Absolute value, written out so proofs can unfold it. -/
def absQ (x : ℚ) : ℚ := if x < 0 then -x else x

/-- `weights_series[abs(weights_series) < weights_tolerance] = 0.0`. -/
def zeroSmall (t : ℚ) (w : List ℚ) : List ℚ :=
  w.map (fun x => if absQ x < t then 0 else x)

/-- Tail of `Solver.solve` after the backend reported its status: build the
weights series (`zip` with `strict=True`), re-validate the RAW series (sum-to-
one against the fixed `SETTINGS.SUM_WEIGHTS_TOLERANCE`, else long-only
non-negativity), then zero sub-tolerance entries, then `Portfolio(...)`. -/
def postProcess (univ : List String) (cnames : List CName) (tol : Option ℚ)
    (w : List ℚ) : Except OptiError (List (String × ℚ)) :=
  if univ.length ≠ w.length then
    .error (.inputError "zip strict: length mismatch")
  else if CName.sumToOne ∈ cnames ∧ ¬ (1 - w.sum ≤ SUM_WEIGHTS_TOLERANCE) then
    .error (.toleranceViolation "assert 1 - weights_series.sum() <= SETTINGS.SUM_WEIGHTS_TOLERANCE")
  else if CName.sumToOne ∉ cnames ∧ CName.longOnly ∈ cnames ∧ ¬ (∀ x ∈ w, 0 ≤ x) then
    .error (.toleranceViolation "assert all(weights_series >= 0)")
  else
    mkPortfolioChecked (univ.zip (match tol with | some t => zeroSmall t w | none => w))

/-- Modelled from the spec wording of claim C1 only (zero the sub-tolerance
entries FIRST, then re-validate the zeroed vector using the `weights_tolerance`
argument); compared against `postProcess`, which is the source translation. -/
def specPostProcess (univ : List String) (cnames : List CName) (t : ℚ)
    (w : List ℚ) : Except OptiError (List (String × ℚ)) :=
  let z := zeroSmall t w
  if CName.sumToOne ∈ cnames ∧ ¬ (1 - z.sum ≤ t) then
    .error (.toleranceViolation "assert 1 - weights_series.sum() <= weights_tolerance")
  else if CName.sumToOne ∉ cnames ∧ CName.longOnly ∈ cnames ∧ ¬ (∀ x ∈ z, 0 ≤ x) then
    .error (.toleranceViolation "assert all(weights_series >= 0)")
  else mkPortfolioChecked (univ.zip z)

/-! ### Backend interaction (`solver.py::Solver.solve`, head) -/

/-- Outcome of one `problem.solve(...)` call: it can raise `cp.SolverError`,
raise some other exception, or finish leaving `problem.status` and the value
of the weights variable. The backend is a function of the configuration used
(`some name` for `problem.solve(solver=name)`, `none` for the default
configuration `problem.solve()`). -/
inductive BackendOutcome where
  | raisesSolverError
  | raisesOther
  | finished (status : String) (w : List ℚ)
deriving DecidableEq

/-- Effective outcome of the try/except block: call with the chosen solver;
only on `cp.SolverError` retry once with the default configuration. -/
def effectiveRun (backend : Option String → BackendOutcome) (chosen : String) :
    BackendOutcome :=
  match backend (some chosen) with
  | .raisesSolverError => backend none
  | o => o

/-- The configurations with which the backend is invoked, in order. -/
def callTrace (backend : Option String → BackendOutcome) (chosen : String) :
    List (Option String) :=
  match backend (some chosen) with
  | .raisesSolverError => [some chosen, none]
  | _ => [some chosen]

/-- `Solver.solve` after the problem is assembled: run the backend (with the
one-time default-configuration retry), require status `"optimal"`, then
post-process the recovered weights. -/
def solveModel (backend : Option String → BackendOutcome) (chosen : String)
    (univ : List String) (cnames : List CName) (tol : Option ℚ) :
    Except OptiError (List (String × ℚ)) :=
  match effectiveRun backend chosen with
  | .raisesSolverError => .error (.backendRaised "SolverError")
  | .raisesOther => .error (.backendRaised "exception")
  | .finished s w =>
    if s ≠ "optimal" then
      .error (.infeasibleOrNumerical ("Problem status is not optimal but: " ++ s))
    else postProcess univ cnames tol w

/-! ### Solver construction (`solver.py::Solver.__init__`) -/

/-- A pandas frame: columns, each a name with its list of cells;
a `none` cell is a NaN. -/
abbrev Frame := List (String × List (Option ℚ))

/-- `df.isna().sum().sum()` is truthy iff some cell is NaN. -/
def frameHasNaN (f : Frame) : Bool :=
  f.any (fun c => c.2.any (fun v => v.isNone))

/-- `Series.dropna`: the non-null cells of a column, in order. -/
def dropNone : List (Option ℚ) → List ℚ
  | [] => []
  | none :: xs => dropNone xs
  | some x :: xs => x :: dropNone xs

/-- Per-column selection of `Solver.__init__` when `financials_df` has NaNs:
take the first 4 non-null values; if fewer than 4 exist, substitute the
penalty constant `-1e12` four times. -/
def processColumn (col : List (Option ℚ)) : List ℚ :=
  if ((dropNone col).take 4).length = 4 then (dropNone col).take 4
  else List.replicate 4 (-(1000000000000 : ℚ))

/-- `pct_change().iloc[1:].fillna(0)` on one column. A zero previous value is
mapped to 0, the 0/0 = NaN case filled by `fillna(0)`; the claims below only
evaluate this on columns whose consecutive nonzero denominators are nonzero,
so the x/0 infinity case of pandas never arises in them. -/
def pctChangeDrop : List ℚ → List ℚ
  | [] => []
  | [_] => []
  | a :: b :: xs => (if a = 0 then 0 else (b - a) / a) :: pctChangeDrop (b :: xs)

/-- `financials_df.pct_change().iloc[1:].fillna(0).T`: after the transpose the
result has one row per asset, so it is the per-asset list of growth rows. -/
def processedGrowth (f : Frame) : List (String × List ℚ) :=
  let sel := if frameHasNaN f then f.map (fun c => (c.1, processColumn c.2))
             else f.map (fun c => (c.1, dropNone c.2))
  sel.map (fun c => (c.1, pctChangeDrop c.2))

/-- `Solver.__init__`: the NaN check on `returns` comes first and raises before
anything else (in particular before any backend interaction, which only
happens in `solve`); then, only when a Financials objective is present, the
financials frame is required and processed into the growth matrix. The
`cnames` argument is stored without validation, as in the source. -/
def solverInit (returns : Frame) (objectives : List OName) (_cnames : List CName)
    (financials : Option Frame) :
    Except OptiError (Option (List (String × List ℚ))) :=
  if frameHasNaN returns then .error (.inputError "Passed `returns` contains NaN.")
  else if OName.financials ∈ objectives then
    match financials with
    | none => .error (.inputError "You must pass the `financials_df` parameter.")
    | some f =>
      let g := processedGrowth f
      if g.isEmpty ∨ g.all (fun c => c.2.isEmpty) then
        .error (.inputError "assert not financials_df.empty")
      else .ok (some g)
  else .ok none

/-! ### Financials objective (`objectives.py::FinancialsObjectiveFunction`) -/

/-- Contribution of one asset to the Financials minimization term
`weight * cp.sum(w @ -G * 1e-4)`: summing `w @ (-G) * 1e-4` over the periods
and regrouping by asset gives, for asset `i` with growth row `row`,
`objWeight * (w_i * (-(sum row)) * 1e-4)`. -/
def assetContribution (objWeight wi : ℚ) (row : List ℚ) : ℚ :=
  objWeight * (wi * (-(row.sum)) * (1 / 10000))

/-- The whole Financials minimization term, as the sum of the per-asset
contributions. -/
def finObjectiveTerm (objWeight : ℚ) (w : List ℚ) (g : List (List ℚ)) : ℚ :=
  ((w.zip g).map (fun p => assetContribution objWeight p.1 p.2)).sum

/-! ### WeightsConstraint (`constraints.py::WeightsConstraint.get_constraints_list`) -/

/-- An emitted vectorized constraint: `weights_variable >= q` or
`weights_variable <= q`, applying to every asset entry. -/
inductive WConstr where
  | geAll (q : ℚ)
  | leAll (q : ℚ)
deriving DecidableEq

/-- Satisfaction of an emitted constraint by a weight vector: the cvxpy
inequality on the whole variable is a per-asset inequality. -/
def WConstr.sat (c : WConstr) (w : List ℚ) : Prop :=
  match c with
  | .geAll q => ∀ x ∈ w, q ≤ x
  | .leAll q => ∀ x ∈ w, x ≤ q

/-- `WeightsConstraint.get_constraints_list`: the lower bound is asserted to be
`>= 0` and `<= 100`; the upper bound is asserted only to be `<= 100`. -/
def weightsGetConstraintsList (lower upper : Option ℤ) :
    Except OptiError (List WConstr) :=
  match lower with
  | some l =>
    if l < 0 then .error (.inputError "The lower bound percentage cannot be less than 0.")
    else if 100 < l then .error (.inputError "The lower bound percentage cannot be more than 100.")
    else
      match upper with
      | some u =>
        if 100 < u then .error (.inputError "The upper bound percentage cannot be more than 100.")
        else .ok [.geAll ((l : ℚ) / 100), .leAll ((u : ℚ) / 100)]
      | none => .ok [.geAll ((l : ℚ) / 100)]
  | none =>
    match upper with
    | some u =>
      if 100 < u then .error (.inputError "The upper bound percentage cannot be more than 100.")
      else .ok [.leAll ((u : ℚ) / 100)]
    | none => .ok []

/-! ### Rebalance calendar (`enums/backtester.py`, `backtester.py::Backtester`) -/

/-- A Gregorian calendar date. -/
structure ODate where
  y : ℕ
  m : ℕ
  d : ℕ
deriving DecidableEq

/-- Calendar order on dates (year, then month, then day). -/
def dateLe (a b : ODate) : Bool :=
  decide (a.y < b.y ∨ (a.y = b.y ∧ (a.m < b.m ∨ (a.m = b.m ∧ a.d ≤ b.d))))

/-- Gregorian leap year. -/
def isLeap (y : ℕ) : Bool :=
  decide ((y % 4 = 0 ∧ y % 100 ≠ 0) ∨ y % 400 = 0)

/-- Number of days in a month. -/
def daysInMonth (y m : ℕ) : ℕ :=
  if m = 2 then (if isLeap y then 29 else 28)
  else if m = 4 ∨ m = 6 ∨ m = 9 ∨ m = 11 then 30
  else 31

/-- Day after a given date. -/
def nextDay (dt : ODate) : ODate :=
  if dt.d < daysInMonth dt.y dt.m then ⟨dt.y, dt.m, dt.d + 1⟩
  else if dt.m < 12 then ⟨dt.y, dt.m + 1, 1⟩
  else ⟨dt.y + 1, 1, 1⟩

/-- All dates from `cur` to `e`, inclusive, with a fuel bound. -/
def listDatesAux : ℕ → ODate → ODate → List ODate
  | 0, _, _ => []
  | fuel + 1, cur, e =>
    if dateLe cur e then cur :: listDatesAux fuel (nextDay cur) e else []

/-- All dates from `s` to `e`, inclusive. -/
def listDates (s e : ODate) : List ODate :=
  listDatesAux ((e.y + 1 - s.y) * 366) s e

/-- Serial day number of a date (days since 1970-01-01), by the standard
civil-calendar formula; used only to locate the weekday. -/
def dateSerial (dt : ODate) : ℤ :=
  let y : ℤ := if dt.m ≤ 2 then (dt.y : ℤ) - 1 else (dt.y : ℤ)
  let era : ℤ := (if 0 ≤ y then y else y - 399) / 400
  let yoe : ℤ := y - era * 400
  let mp : ℤ := if 2 < dt.m then (dt.m : ℤ) - 3 else (dt.m : ℤ) + 9
  let doy : ℤ := (153 * mp + 2) / 5 + (dt.d : ℤ) - 1
  let doe : ℤ := yoe * 365 + yoe / 4 - yoe / 100 + doy
  era * 146097 + doe - 719468

/-- Whether a date falls on a Sunday (pandas `freq="W"` is week-end Sunday);
1970-01-04 (serial 3) was a Sunday. -/
def isSunday (dt : ODate) : Bool :=
  dateSerial dt % 7 = 3

/-- Whether a date is the last day of its month. -/
def isMonthEnd (dt : ODate) : Bool :=
  dt.d = daysInMonth dt.y dt.m

/-- Month-end dates inside `[s, e]`: one candidate per calendar month from
`s`'s month to `e`'s month, filtered to the interval (pandas `freq="ME"`). -/
def monthEnds (s e : ODate) : List ODate :=
  let sIdx := s.y * 12 + (s.m - 1)
  let eIdx := e.y * 12 + (e.m - 1)
  ((List.range (eIdx + 1 - sIdx)).map (fun i =>
    let t := sIdx + i
    ODate.mk (t / 12) (t % 12 + 1) (daysInMonth (t / 12) (t % 12 + 1)))).filter
    (fun dt => dateLe s dt && dateLe dt e)

/-- Every `n`-th element of a list, keeping indices `0, n, 2n, ...`
(pandas `freq="3M"`/`"12M"` steps 3 or 12 month-ends from the first one). -/
def everyNth (n : ℕ) (l : List α) : List α :=
  (List.range l.length).filterMap (fun i => if i % n = 0 then l.get? i else none)

/-- `enums/backtester.py::RebalanceFrequency`: the enum has exactly the four
members WEEKLY = "W", MONTHLY = "ME", QUARTERLY = "3M", YEARLY = "12M". -/
inductive RebalanceFrequency where
  | weekly
  | monthly
  | quarterly
  | yearly
deriving DecidableEq

/-- The pandas frequency string of each enum member. -/
def RebalanceFrequency.value : RebalanceFrequency → String
  | .weekly => "W"
  | .monthly => "ME"
  | .quarterly => "3M"
  | .yearly => "12M"

/-- List of every member of the enum. -/
def RebalanceFrequency.all : List RebalanceFrequency :=
  [.weekly, .monthly, .quarterly, .yearly]

/-- `pd.date_range(start, end, freq, ...)` for the four supported frequency
strings, on dates. -/
def dateRangeDates (f : RebalanceFrequency) (s e : ODate) : List ODate :=
  match f with
  | .weekly => (listDates s e).filter isSunday
  | .monthly => monthEnds s e
  | .quarterly => everyNth 3 (monthEnds s e)
  | .yearly => everyNth 12 (monthEnds s e)

/-- A pandas timestamp: a date plus seconds past midnight. -/
structure Stamp where
  date : ODate
  secs : ℕ
deriving DecidableEq

/-- `pd.Timestamp.normalize`: midnight of the same date. -/
def Stamp.normalizeTs (t : Stamp) : Stamp := ⟨t.date, 0⟩

/-- `Backtester.get_rebalance_dates`: `pd.date_range(start, end,
freq=self.rebal_freq.value, normalize=True)` — each produced stamp is at
midnight. -/
def getRebalanceDates (f : RebalanceFrequency) (s e : Stamp) : List Stamp :=
  (dateRangeDates f s.normalizeTs.date e.normalizeTs.date).map (fun dt => ⟨dt, 0⟩)

/-! ### Backtester portfolio accumulation (`backtester.py::Backtester`) -/

/-- One call of `Backtester.compute_portfolios`: appends `opt.solve(end_date=d)`
for each rebalance date `d` to the persistent `self.ptfs` list (never cleared)
and returns that same list. `solveFn` is the per-date portfolio collaborator. -/
def computePortfoliosState {α : Type} (solveFn : ODate → α) (dates : List ODate)
    (st : List α) : List α :=
  st ++ dates.map solveFn

/-- State of `self.ptfs` after `n` successful `compute_portfolios` calls
starting from a fresh backtester. -/
def iterCompute {α : Type} (solveFn : ODate → α) (dates : List ODate) : ℕ → List α
  | 0 => []
  | n + 1 => computePortfoliosState solveFn dates (iterCompute solveFn dates n)

/-- The portfolio list `compute_history_values` uses:
`self.ptfs or self.compute_portfolios()` — an already non-empty accumulated
list is reused as-is, otherwise one `compute_portfolios` call is made. -/
def historyUsedPtfs {α : Type} (solveFn : ODate → α) (dates : List ODate)
    (st : List α) : List α :=
  if st.isEmpty then computePortfoliosState solveFn dates st else st

/-! ### Wealth curve (`backtester.py::Backtester.compute_history_values`) -/

/-- Row product of returns and weights, summed across assets
(`(rets * w).sum(axis=1)` for one date). -/
def dot (xs ys : List ℚ) : ℚ :=
  ((xs.zip ys).map (fun p => p.1 * p.2)).sum

/-- `reindex(rets.index, method="ffill").fillna(0)` at one day `t`: the weights
of the latest rebalance date `<= t` (the rebalance table is chronological), or
all-zero weights when `t` precedes every rebalance date. -/
def lastRebalLE (rebal : List (ODate × List ℚ)) (n : ℕ) (t : ODate) : List ℚ :=
  match (rebal.filter (fun p => dateLe p.1 t)).getLast? with
  | some p => p.2
  | none => List.replicate n 0

/-- Running cumulative sums (`.cumsum()`), starting from `acc`. -/
def cumsumFrom (acc : ℚ) : List ℚ → List ℚ
  | [] => []
  | x :: xs => (acc + x) :: cumsumFrom (acc + x) xs

/-- `Backtester.compute_history_values` on the returns table (one row per
trading day, columns aligned with the weight rows):
`1 + (rets * ptfs.reindex(rets.index, method="ffill").fillna(0)).sum(axis=1).cumsum()`. -/
def computeHistoryValues (rebal : List (ODate × List ℚ)) (n : ℕ)
    (rets : List (ODate × List ℚ)) : List ℚ :=
  (cumsumFrom 0 (rets.map (fun r => dot r.2 (lastRebalLE rebal n r.1)))).map
    (fun x => 1 + x)

/-! ## Claims -/

/-- C9: the `Portfolio.__init__` sum-of-weights check is one-sided and
conditional: it raises exactly when the weights mapping is non-empty, its sum
is non-zero, and `1 - sum > 0.02`; in particular a mapping with sum `5`, the
empty mapping, and a mapping summing exactly to `0` are all accepted. -/
theorem C9_sum_check_iff :
    (∀ w : List (String × ℚ), portfolioInitRaises w = true ↔
      (w ≠ [] ∧ (w.map Prod.snd).sum ≠ 0 ∧
        SUM_WEIGHTS_TOLERANCE < 1 - (w.map Prod.snd).sum)) ∧
    portfolioInitRaises [("A", 5)] = false ∧
    portfolioInitRaises [] = false ∧
    portfolioInitRaises [("A", 1 / 2), ("B", -(1 / 2))] = false := by
  refine ⟨fun w => ?_, ?_, ?_, ?_⟩
  · simp only [portfolioInitRaises, portfolioSumCheckRaises]
    split_ifs with h1 h2
    · have hw : w = [] := by
        have h := List.isEmpty_iff.mp h1
        exact List.map_eq_nil_iff.mp h
      simp [hw]
    · have hw : w ≠ [] := by
        intro hw
        simp [hw] at h1
      simp only [hw, h2, not_le, decide_eq_true_eq, ne_eq, not_false_iff, true_and]
    · have hsum : (w.map Prod.snd).sum = 0 := by
        by_contra hc
        exact h2 hc
      simp [hsum]
  · norm_num [portfolioInitRaises, portfolioSumCheckRaises, SUM_WEIGHTS_TOLERANCE]
  · norm_num [portfolioInitRaises, portfolioSumCheckRaises]
  · norm_num [portfolioInitRaises, portfolioSumCheckRaises]

/-- C2: any NaN cell in the returns frame makes `Solver.__init__` fail with the
input error, whatever the objectives, constraints and financials are; the check
is the first statement of the constructor, so no solve or backend call can have
happened. -/
theorem C2_nan_raises_at_init (returns : Frame) (objectives : List OName)
    (cnames : List CName) (financials : Option Frame)
    (h : frameHasNaN returns = true) :
    solverInit returns objectives cnames financials
      = .error (.inputError "Passed `returns` contains NaN.") := by
  simp [solverInit, h]

/-- Witness for C2: a 1-column frame with one NaN cell. -/
theorem C2_nan_raises_at_init_witness :
    frameHasNaN [("A", [some 1, none])] = true ∧
    solverInit [("A", [some 1, none])] [OName.cvar] [CName.sumToOne] none
      = .error (.inputError "Passed `returns` contains NaN.") :=
  ⟨by decide, C2_nan_raises_at_init _ _ _ _ (by decide)⟩

/-- C6 counterexample: the upper bound `-5` lies outside `[0, 100]`, yet
`get_constraints_list` raises no failure and emits `w <= -5/100`. -/
theorem C6_counterexample :
    weightsGetConstraintsList none (some (-5)) = .ok [.leAll (-(1 / 20))] := by
  norm_num [weightsGetConstraintsList]

/-- C6 amended: a supplied lower bound is validated to lie in `[0, 100]`; a
supplied upper bound is validated only against the upper limit `100` (there is
no lower check on it); when the performed checks pass, the emitted constraints
are exactly `lower/100 <= w` and `w <= upper/100`, applied per asset. -/
theorem C6_bounds_validation :
    (∀ (l u : Option ℤ) (lv : ℤ), l = some lv → (lv < 0 ∨ 100 < lv) →
      ∃ m, weightsGetConstraintsList l u = .error (.inputError m)) ∧
    (∀ (l u : Option ℤ), (∀ lv : ℤ, l = some lv → 0 ≤ lv ∧ lv ≤ 100) →
      ∀ uv : ℤ, u = some uv → 100 < uv →
      weightsGetConstraintsList l u
        = .error (.inputError "The upper bound percentage cannot be more than 100.")) ∧
    (∀ (l u : Option ℤ), (∀ lv : ℤ, l = some lv → 0 ≤ lv ∧ lv ≤ 100) →
      (∀ uv : ℤ, u = some uv → uv ≤ 100) →
      weightsGetConstraintsList l u
        = .ok ((l.map (fun lv => WConstr.geAll ((lv : ℚ) / 100))).toList
            ++ (u.map (fun uv => WConstr.leAll ((uv : ℚ) / 100))).toList)) ∧
    (∀ (q : ℚ) (w : List ℚ), (WConstr.geAll q).sat w ↔ ∀ x ∈ w, q ≤ x) ∧
    (∀ (q : ℚ) (w : List ℚ), (WConstr.leAll q).sat w ↔ ∀ x ∈ w, x ≤ q) := by
  refine ⟨?_, ?_, ?_, fun q w => Iff.rfl, fun q w => Iff.rfl⟩
  · rintro l u lv rfl hout
    rcases hout with hlt | hgt
    · exact ⟨"The lower bound percentage cannot be less than 0.",
        by simp [weightsGetConstraintsList, hlt]⟩
    · have hnn : ¬ lv < 0 := by omega
      exact ⟨"The lower bound percentage cannot be more than 100.",
        by simp [weightsGetConstraintsList, hnn, hgt]⟩
  · rintro l u hl uv rfl hgt
    match l with
    | none => simp [weightsGetConstraintsList, hgt]
    | some lv =>
      obtain ⟨h0, h100⟩ := hl lv rfl
      have hn1 : ¬ lv < 0 := by omega
      have hn2 : ¬ 100 < lv := by omega
      simp [weightsGetConstraintsList, hn1, hn2, hgt]
  · intro l u hl hu
    match l, u with
    | none, none => simp [weightsGetConstraintsList]
    | none, some uv =>
      have := hu uv rfl
      have hn : ¬ 100 < uv := by omega
      simp [weightsGetConstraintsList, hn]
    | some lv, none =>
      obtain ⟨h0, h100⟩ := hl lv rfl
      have hn1 : ¬ lv < 0 := by omega
      have hn2 : ¬ 100 < lv := by omega
      simp [weightsGetConstraintsList, hn1, hn2]
    | some lv, some uv =>
      obtain ⟨h0, h100⟩ := hl lv rfl
      have h3 := hu uv rfl
      have hn1 : ¬ lv < 0 := by omega
      have hn2 : ¬ 100 < lv := by omega
      have hn3 : ¬ 100 < uv := by omega
      simp [weightsGetConstraintsList, hn1, hn2, hn3]

/-- Witness for C6: both bounds supplied and valid emit exactly the two
per-asset constraints. -/
theorem C6_bounds_validation_witness :
    weightsGetConstraintsList (some 1) (some 70)
      = .ok (((some (1 : ℤ)).map (fun lv => WConstr.geAll ((lv : ℚ) / 100))).toList
          ++ ((some (70 : ℤ)).map (fun uv => WConstr.leAll ((uv : ℚ) / 100))).toList) :=
  C6_bounds_validation.2.2.1 (some 1) (some 70)
    (fun lv h => by cases h; omega) (fun uv h => by cases h; omega)

/-- C8: monthly rebalancing between 2023-01-01 and 2023-03-03 yields exactly
the two month-end dates 2023-01-31 and 2023-02-28. -/
theorem C8_monthly_window :
    getRebalanceDates RebalanceFrequency.monthly ⟨⟨2023, 1, 1⟩, 0⟩ ⟨⟨2023, 3, 3⟩, 0⟩
      = [⟨⟨2023, 1, 31⟩, 0⟩, ⟨⟨2023, 2, 28⟩, 0⟩] ∧
    (getRebalanceDates RebalanceFrequency.monthly ⟨⟨2023, 1, 1⟩, 0⟩ ⟨⟨2023, 3, 3⟩, 0⟩).length
      = 2 := by
  constructor <;> decide

/-- C1 counterexample: with a NoShortSell constraint (no SumToOne), a raw
weight vector `[-0.001, 1.001]` and `weights_tolerance = 0.01`, the claimed
order (zero first, then validate the zeroed vector) succeeds, but the code
validates the raw vector first and fails on the small negative entry. -/
theorem C1_counterexample :
    specPostProcess ["A", "B"] [CName.longOnly] (1 / 100) [-(1 / 1000), 1001 / 1000]
      = .ok [("A", 0), ("B", 1001 / 1000)] ∧
    postProcess ["A", "B"] [CName.longOnly] (some (1 / 100)) [-(1 / 1000), 1001 / 1000]
      = .error (.toleranceViolation "assert all(weights_series >= 0)") := by
  constructor
  · norm_num [specPostProcess, zeroSmall, absQ, mkPortfolioChecked, portfolioInitRaises,
      portfolioSumCheckRaises, SUM_WEIGHTS_TOLERANCE]
  · norm_num [postProcess]
    simp

/-- C1 amended: after an optimal status the re-validation runs FIRST, on the
raw recovered vector, with the SumToOne check against the fixed
`SETTINGS.SUM_WEIGHTS_TOLERANCE` (not the `weights_tolerance` argument) and
otherwise the NoShortSell check that every raw weight is nonnegative; only
afterwards are entries with magnitude below `weights_tolerance` zeroed, and
the Portfolio is built from the zeroed vector. -/
theorem C1_revalidation_order (univ : List String) (cnames : List CName)
    (t : ℚ) (w : List ℚ) (hlen : univ.length = w.length) :
    ((CName.sumToOne ∈ cnames ∧ ¬ (1 - w.sum ≤ SUM_WEIGHTS_TOLERANCE)) →
      postProcess univ cnames (some t) w
        = .error (.toleranceViolation
            "assert 1 - weights_series.sum() <= SETTINGS.SUM_WEIGHTS_TOLERANCE")) ∧
    ((CName.sumToOne ∈ cnames → 1 - w.sum ≤ SUM_WEIGHTS_TOLERANCE) →
     (CName.sumToOne ∉ cnames → CName.longOnly ∈ cnames → ∀ x ∈ w, 0 ≤ x) →
      postProcess univ cnames (some t) w
        = mkPortfolioChecked (univ.zip (zeroSmall t w))) := by
  constructor
  · intro hfail
    simp only [postProcess, hlen]
    rw [if_neg (by simp), if_pos hfail]
  · intro hsum hlong
    simp only [postProcess, hlen]
    rw [if_neg (by simp)]
    rw [if_neg, if_neg]
    · rintro ⟨hnot, hmem, hneg⟩
      exact hneg (hlong hnot hmem)
    · rintro ⟨hmem, hviol⟩
      exact hviol (hsum hmem)

/-- Witness for C1: with SumToOne present and a raw sum of exactly 1, the
validation passes and the result is the zeroed-then-checked portfolio. -/
theorem C1_revalidation_order_witness :
    postProcess ["A"] [CName.sumToOne] (some (1 / 100)) [1]
      = mkPortfolioChecked (["A"].zip (zeroSmall (1 / 100) [1])) :=
  (C1_revalidation_order ["A"] [CName.sumToOne] (1 / 100) [1] rfl).2
    (fun _ => by norm_num [SUM_WEIGHTS_TOLERANCE])
    (fun hn => (hn (by simp)).elim)

/-- C3: the backend is first invoked with the selected solver configuration;
exactly when that call raises the backend solver error, it is invoked once
more with the default configuration (and never a third time); whenever the
effective run finishes with a status other than "optimal", solve fails with
the infeasible-or-numerical error naming that status, and no portfolio is
produced. -/
theorem C3_retry_and_status_gate (backend : Option String → BackendOutcome)
    (chosen : String) (univ : List String) (cnames : List CName) (tol : Option ℚ) :
    (callTrace backend chosen).head? = some (some chosen) ∧
    (callTrace backend chosen = [some chosen, none] ↔
      backend (some chosen) = .raisesSolverError) ∧
    (callTrace backend chosen).length ≤ 2 ∧
    (∀ s w, effectiveRun backend chosen = .finished s w → s ≠ "optimal" →
      solveModel backend chosen univ cnames tol
        = .error (.infeasibleOrNumerical ("Problem status is not optimal but: " ++ s))) := by
  refine ⟨?_, ?_, ?_, ?_⟩
  · unfold callTrace
    match h : backend (some chosen) with
    | .raisesSolverError => simp
    | .raisesOther => simp
    | .finished s w => simp
  · unfold callTrace
    match h : backend (some chosen) with
    | .raisesSolverError => simp [h]
    | .raisesOther => simp [h]
    | .finished s w => simp [h]
  · unfold callTrace
    match h : backend (some chosen) with
    | .raisesSolverError => simp
    | .raisesOther => simp
    | .finished s w => simp
  · intro s w heff hs
    simp [solveModel, heff, hs]

/-- A backend whose configured call raises the solver error and whose default
call finishes with an infeasible status; used only by the C3 witness. -/
def c3TestBackend : Option String → BackendOutcome
  | some _ => .raisesSolverError
  | none => .finished "infeasible" []

/-- Witness for C3: the retried call happens and the non-optimal status is
reported in the failure. -/
theorem C3_retry_and_status_gate_witness :
    callTrace c3TestBackend "ECOS" = [some "ECOS", none] ∧
    solveModel c3TestBackend "ECOS" [] [] none
      = .error (.infeasibleOrNumerical ("Problem status is not optimal but: " ++ "infeasible")) := by
  have h := C3_retry_and_status_gate c3TestBackend "ECOS" [] [] none
  exact ⟨h.2.1.mpr rfl, h.2.2.2 "infeasible" [] rfl (by decide)⟩

/-- C4 counterexample: column "A" has only 2 non-null values, so it is
replaced by the constant `-1e12`; but the percent-change of a constant column
is identically zero, so the growth row handed to the Financials objective for
"A" equals that of the constant column "B", whose growth is non-negative (all
zeros) — the penalized contribution is NOT strictly worse. -/
theorem C4_counterexample :
    processedGrowth [("A", [some 1, some 2, none, none]),
        ("B", [some 5, some 5, some 5, some 5])]
      = [("A", [0, 0, 0]), ("B", [0, 0, 0])] ∧
    processColumn [some 1, some 2, none, none]
      = List.replicate 4 (-(1000000000000 : ℚ)) ∧
    ([(0 : ℚ), 0, 0].all (fun x => decide (0 ≤ x))) = true ∧
    ¬ (assetContribution (1 / 4) (1 / 2) [(0 : ℚ), 0, 0]
        > assetContribution (1 / 4) (1 / 2) [(0 : ℚ), 0, 0]) := by
  refine ⟨?_, ?_, by decide, by simp⟩
  · norm_num [processedGrowth, frameHasNaN, processColumn, pctChangeDrop, dropNone]
  · norm_num [processColumn, dropNone]

/-- C4 amended: a financials column with fewer than 4 non-null observations is
replaced (not dropped) by the constant penalty `-1e12`; the percent-change of
that constant column is identically zero, so the penalized asset's
contribution to the minimized term is 0 — weakly worse than (never better
than) that of any asset with non-negative growth, with equality when the
other asset's growth is all zero. -/
theorem C4_penalty_growth :
    (∀ col : List (Option ℚ), (dropNone col).length < 4 →
      processColumn col = List.replicate 4 (-(1000000000000 : ℚ)) ∧
      pctChangeDrop (processColumn col) = List.replicate 3 0) ∧
    (∀ (objW wi : ℚ) (row : List ℚ), 0 ≤ objW → 0 ≤ wi → (∀ x ∈ row, 0 ≤ x) →
      assetContribution objW wi row ≤ assetContribution objW wi (List.replicate 3 0)) := by
  constructor
  · intro col hshort
    have hlen : ¬ ((dropNone col).take 4).length = 4 := by
      rw [List.length_take]
      omega
    have hrep : processColumn col = List.replicate 4 (-(1000000000000 : ℚ)) := by
      unfold processColumn
      rw [if_neg hlen]
    refine ⟨hrep, ?_⟩
    rw [hrep]
    norm_num [pctChangeDrop, List.replicate]
  · intro objW wi row hW hw hrow
    have hs : 0 ≤ row.sum := List.sum_nonneg hrow
    simp only [assetContribution, List.sum_replicate, smul_zero, neg_zero, mul_zero, zero_mul]
    nlinarith [mul_nonneg (mul_nonneg hW hw) hs]

/-- Witness for C4: a 2-observation column is penalized into zero growth, and
a zero-growth comparator ties it. -/
theorem C4_penalty_growth_witness :
    (processColumn [some 1, none] = List.replicate 4 (-(1000000000000 : ℚ)) ∧
      pctChangeDrop (processColumn [some 1, none]) = List.replicate 3 0) ∧
    assetContribution 1 1 [(0 : ℚ), 0, 0] ≤ assetContribution 1 1 (List.replicate 3 0) :=
  ⟨C4_penalty_growth.1 [some 1, none] (by norm_num [dropNone]),
   C4_penalty_growth.2 1 1 [0, 0, 0] (by norm_num) (by norm_num)
     (by intro x hx; simp at hx; simp [hx])⟩

/-! ### Calendar lemmas for C5 -/

theorem dateLe_refl (a : ODate) : dateLe a a = true := by
  simp [dateLe]

theorem dateLe_trans {a b c : ODate} (h1 : dateLe a b = true)
    (h2 : dateLe b c = true) : dateLe a c = true := by
  simp only [dateLe, decide_eq_true_eq] at h1 h2 ⊢
  omega

theorem dateLe_nextDay (a : ODate) : dateLe a (nextDay a) = true := by
  unfold nextDay
  split_ifs <;> simp [dateLe]

theorem listDatesAux_mem {fuel : ℕ} :
    ∀ {cur e d : ODate}, d ∈ listDatesAux fuel cur e →
      dateLe cur d = true ∧ dateLe d e = true := by
  induction fuel with
  | zero =>
    intro cur e d h
    simp [listDatesAux] at h
  | succ n ih =>
    intro cur e d h
    rw [listDatesAux] at h
    by_cases hc : dateLe cur e = true
    · rw [if_pos hc] at h
      rcases List.mem_cons.mp h with rfl | hmem
      · exact ⟨dateLe_refl d, hc⟩
      · obtain ⟨h1, h2⟩ := ih hmem
        exact ⟨dateLe_trans (dateLe_nextDay cur) h1, h2⟩
    · rw [if_neg hc] at h
      simp at h

theorem monthEnds_mem {s e d : ODate} (h : d ∈ monthEnds s e) :
    dateLe s d = true ∧ dateLe d e = true ∧ isMonthEnd d = true := by
  unfold monthEnds at h
  obtain ⟨hmem, hcond⟩ := List.mem_filter.mp h
  simp only [Bool.and_eq_true] at hcond
  refine ⟨hcond.1, hcond.2, ?_⟩
  obtain ⟨i, _, rfl⟩ := List.mem_map.mp hmem
  simp [isMonthEnd]

theorem everyNth_mem {n : ℕ} {l : List α} {a : α} (h : a ∈ everyNth n l) :
    a ∈ l := by
  unfold everyNth at h
  obtain ⟨i, _, hsome⟩ := List.mem_filterMap.mp h
  by_cases hc : i % n = 0
  · rw [if_pos hc] at hsome
    exact List.get?_mem hsome
  · rw [if_neg hc] at hsome
    cases hsome

/-- The calendar pattern each frequency generates: Sundays for weekly,
month-end dates for the month-anchored frequencies. -/
def freqPattern (f : RebalanceFrequency) (dt : ODate) : Bool :=
  match f with
  | .weekly => isSunday dt
  | _ => isMonthEnd dt

/-- C5 counterexample: the frequency enum has exactly the four members
weekly/monthly/quarterly/yearly; there is no daily member (pandas "D"). -/
theorem C5_counterexample :
    RebalanceFrequency.all.map RebalanceFrequency.value = ["W", "ME", "3M", "12M"] ∧
    RebalanceFrequency.all.length = 4 ∧
    "D" ∉ RebalanceFrequency.all.map RebalanceFrequency.value := by
  refine ⟨by decide, by decide, by decide⟩

/-- C5 amended: the rebalance calendar supports exactly the four frequencies
weekly, monthly, quarterly and yearly (no daily), and for every supported
frequency every produced date lies between the normalized start and end, is
normalized to midnight, and follows the frequency's calendar pattern. -/
theorem C5_frequencies :
    (∀ f : RebalanceFrequency, f ∈ RebalanceFrequency.all) ∧
    (∀ (f : RebalanceFrequency) (s e t : Stamp), t ∈ getRebalanceDates f s e →
      t.secs = 0 ∧ dateLe s.normalizeTs.date t.date = true ∧
        dateLe t.date e.normalizeTs.date = true ∧ freqPattern f t.date = true) := by
  constructor
  · intro f
    cases f <;> simp [RebalanceFrequency.all]
  · intro f s e t ht
    unfold getRebalanceDates at ht
    obtain ⟨dt, hdt, rfl⟩ := List.mem_map.mp ht
    refine ⟨rfl, ?_⟩
    cases f with
    | weekly =>
      obtain ⟨hmem, hsun⟩ := List.mem_filter.mp hdt
      obtain ⟨h1, h2⟩ := listDatesAux_mem hmem
      exact ⟨h1, h2, hsun⟩
    | monthly =>
      exact monthEnds_mem hdt
    | quarterly =>
      exact monthEnds_mem (everyNth_mem hdt)
    | yearly =>
      exact monthEnds_mem (everyNth_mem hdt)

/-- Witness for C5: 2023-01-31 at midnight is produced for the monthly
frequency and satisfies all four properties. -/
theorem C5_frequencies_witness :
    RebalanceFrequency.monthly ∈ RebalanceFrequency.all ∧
    ((⟨⟨2023, 1, 31⟩, 0⟩ : Stamp).secs = 0 ∧
      dateLe (⟨⟨2023, 1, 1⟩, 0⟩ : Stamp).normalizeTs.date (⟨⟨2023, 1, 31⟩, 0⟩ : Stamp).date = true ∧
      dateLe (⟨⟨2023, 1, 31⟩, 0⟩ : Stamp).date (⟨⟨2023, 3, 3⟩, 0⟩ : Stamp).normalizeTs.date = true ∧
      freqPattern RebalanceFrequency.monthly (⟨⟨2023, 1, 31⟩, 0⟩ : Stamp).date = true) :=
  ⟨C5_frequencies.1 RebalanceFrequency.monthly,
   C5_frequencies.2 RebalanceFrequency.monthly ⟨⟨2023, 1, 1⟩, 0⟩ ⟨⟨2023, 3, 3⟩, 0⟩
     ⟨⟨2023, 1, 31⟩, 0⟩ (by decide)⟩

/-! ### Cumulative-sum lemmas for C7 -/

theorem cumsumFrom_length (acc : ℚ) (xs : List ℚ) :
    (cumsumFrom acc xs).length = xs.length := by
  induction xs generalizing acc with
  | nil => simp [cumsumFrom]
  | cons x xs ih => simp [cumsumFrom, ih]

theorem cumsumFrom_get (xs : List ℚ) :
    ∀ (acc : ℚ) (k : ℕ) (h : k < (cumsumFrom acc xs).length),
      (cumsumFrom acc xs).get ⟨k, h⟩ = acc + (xs.take (k + 1)).sum := by
  induction xs with
  | nil =>
    intro acc k h
    simp [cumsumFrom] at h
  | cons x xs ih =>
    intro acc k h
    cases k with
    | zero => simp [cumsumFrom]
    | succ k =>
      have hk : k < (cumsumFrom (acc + x) xs).length := by
        simpa [cumsumFrom] using h
      have hstep : (cumsumFrom acc (x :: xs)).get ⟨k + 1, h⟩
          = (cumsumFrom (acc + x) xs).get ⟨k, hk⟩ := rfl
      rw [hstep, ih (acc + x) k hk]
      simp [List.take, add_assoc]

theorem computeHistoryValues_length (rebal : List (ODate × List ℚ)) (n : ℕ)
    (rets : List (ODate × List ℚ)) :
    (computeHistoryValues rebal n rets).length = rets.length := by
  simp [computeHistoryValues, cumsumFrom_length]

/-- C7: the wealth curve forward-fills the latest rebalance weights onto every
trading day (all-zero weights before the first rebalance date), takes that
day's weighted realized return summed across assets, and accumulates
additively: the value at day index `k` is `1` plus the sum of the first
`k + 1` daily contributions. -/
theorem C7_wealth_formula :
    (∀ (rebal : List (ODate × List ℚ)) (n : ℕ) (rets : List (ODate × List ℚ))
      (k : ℕ) (h : k < (computeHistoryValues rebal n rets).length),
      (computeHistoryValues rebal n rets).get ⟨k, h⟩
        = 1 + ((rets.map (fun r => dot r.2 (lastRebalLE rebal n r.1))).take (k + 1)).sum) ∧
    (∀ (rebal : List (ODate × List ℚ)) (n : ℕ) (t : ODate),
      (∀ p ∈ rebal, dateLe p.1 t = false) →
      lastRebalLE rebal n t = List.replicate n 0) := by
  constructor
  · intro rebal n rets k h
    unfold computeHistoryValues
    simp only [List.get_eq_getElem, List.getElem_map]
    congr 1
    exact (cumsumFrom_get _ _ _ (by simpa [computeHistoryValues] using h)).trans
      (zero_add _)
  · intro rebal n t hnone
    unfold lastRebalLE
    have hfil : rebal.filter (fun p => dateLe p.1 t) = [] := by
      simp only [List.filter_eq_nil_iff]
      intro p hp
      simp [hnone p hp]
    rw [hfil]
    rfl

/-- Witness for C7: one rebalance date, two trading days (the first before the
rebalance date), checked at day index 1; and a day before every rebalance
date gets the all-zero weights. -/
theorem C7_wealth_formula_witness :
    (computeHistoryValues [(⟨2023, 1, 31⟩, [1 / 2])] 1
        [(⟨2023, 1, 30⟩, [1 / 10]), (⟨2023, 2, 1⟩, [2 / 10])]).get
      ⟨1, by rw [computeHistoryValues_length]; norm_num⟩
      = 1 + (([(⟨2023, 1, 30⟩, [(1 : ℚ) / 10]), (⟨2023, 2, 1⟩, [2 / 10])].map
          (fun r => dot r.2 (lastRebalLE [(⟨2023, 1, 31⟩, [1 / 2])] 1 r.1))).take 2).sum ∧
    lastRebalLE [(⟨2023, 1, 31⟩, [(1 : ℚ) / 2])] 1 ⟨2023, 1, 15⟩ = List.replicate 1 0 :=
  ⟨C7_wealth_formula.1 [(⟨2023, 1, 31⟩, [1 / 2])] 1
      [(⟨2023, 1, 30⟩, [1 / 10]), (⟨2023, 2, 1⟩, [2 / 10])] 1
      (by rw [computeHistoryValues_length]; norm_num),
   C7_wealth_formula.2 [(⟨2023, 1, 31⟩, [1 / 2])] 1 ⟨2023, 1, 15⟩
      (by intro p hp; simp at hp; simp [hp, dateLe])⟩

/-! ### C10: backtester state accumulation -/

theorem join_replicate_comm {α : Type} (n : ℕ) (l : List α) :
    (List.replicate n l).flatten ++ l = l ++ (List.replicate n l).flatten := by
  induction n with
  | zero => simp
  | succ n ih =>
    simp only [List.replicate_succ, List.flatten_cons, List.append_assoc]
    rw [ih]

/-- C10: `compute_portfolios` appends one portfolio per rebalance date to the
persistent list without clearing it, so `n` successful calls from a fresh
backtester leave `n` concatenated copies of the per-date portfolio list
(`n * dates.length` entries, each date's portfolio duplicated `n` times), and
`compute_history_values` reuses a non-empty accumulated list as-is instead of
recomputing it. -/
theorem C10_accumulation :
    (∀ (α : Type) (solveFn : ODate → α) (dates : List ODate) (n : ℕ),
      iterCompute solveFn dates n = (List.replicate n (dates.map solveFn)).flatten ∧
      (iterCompute solveFn dates n).length = n * dates.length) ∧
    (∀ (α : Type) (solveFn : ODate → α) (dates : List ODate) (st : List α),
      st ≠ [] → historyUsedPtfs solveFn dates st = st) := by
  constructor
  · intro α solveFn dates n
    have hjoin : iterCompute solveFn dates n = (List.replicate n (dates.map solveFn)).flatten := by
      induction n with
      | zero => simp [iterCompute]
      | succ n ih =>
        rw [iterCompute, computePortfoliosState, ih, join_replicate_comm]
        simp [List.replicate_succ]
    refine ⟨hjoin, ?_⟩
    rw [hjoin]
    simp [List.length_flatten, List.map_replicate, List.sum_replicate, smul_eq_mul, Nat.mul_comm]
  · intro α solveFn dates st hne
    unfold historyUsedPtfs
    rw [if_neg]
    simpa using hne

/-- Witness for C10: two calls duplicate the single-date portfolio list twice,
and a non-empty accumulated list is reused untouched. -/
theorem C10_accumulation_witness :
    iterCompute (fun _ : ODate => (0 : ℕ)) [⟨2023, 1, 31⟩] 2
      = (List.replicate 2 ([(⟨2023, 1, 31⟩ : ODate)].map (fun _ => (0 : ℕ)))).flatten ∧
    historyUsedPtfs (fun _ : ODate => (0 : ℕ)) [⟨2023, 1, 31⟩] [5] = [5] :=
  ⟨(C10_accumulation.1 ℕ (fun _ => 0) [⟨2023, 1, 31⟩] 2).1,
   C10_accumulation.2 ℕ (fun _ => 0) [⟨2023, 1, 31⟩] [5] (by simp)⟩

end Opti
